import Mathlib

/-!
Shallow embedding of torchmm/base.py: the Model interface and its two
concrete emission models, CategoricalModel and DiagNormalModel.

Tensors are modelled as lists of real numbers; observed category indices as
natural numbers.  Random draws made internally by the source (torch.rand_like,
Tensor.normal_, Tensor.log_normal_, distribution sampling noise) are passed in
explicitly as arguments, so every operation is a deterministic function of the
model state and the supplied noise.  Python exceptions raised by sequence
indexing are modelled by returning the state reached at the moment of the
exception together with a success flag, so that partial mutation is
observable.  Failures raised by the torch distribution constructors are
modelled with Except.
-/

noncomputable section

namespace TorchMM

/-- Softmax of a list of reals, as computed by Tensor.softmax(0). -/
def softmax (l : List ℝ) : List ℝ :=
  l.map (fun x => Real.exp x / (l.map Real.exp).sum)

/-- Log-sum-exp normalizer used by torch.distributions.Categorical. -/
def logsumexp (l : List ℝ) : ℝ :=
  Real.log ((l.map Real.exp).sum)

/-- Length of the result of Tensor.bincount(minlength): the maximum of
minlength and (largest element + 1). -/
def bincountLen (X : List ℕ) (minlength : ℕ) : ℕ :=
  max minlength (X.foldr (fun a b => max (a + 1) b) 0)

/-- X.bincount(minlength): occurrence counts of each value 0, 1, ... . -/
def bincount (X : List ℕ) (minlength : ℕ) : List ℕ :=
  (List.range (bincountLen X minlength)).map (fun k => X.count k)

/-- Inverse-CDF draw from a probability vector given a uniform variate u:
the index of the first bin whose cumulative mass reaches u. -/
def invCDF : List ℝ → ℝ → ℕ
  | [], _ => 0
  | p :: rest, u => if u ≤ p then 0 else invCDF rest (u - p) + 1

/-- State of CategoricalModel: the stored logits vector. -/
structure CategoricalModel where
  logits : List ℝ

namespace CategoricalModel

/-- CategoricalModel.__init__: exactly one of probs and logits must be
given; a probability vector is stored as its elementwise natural log. -/
def init (probs logits : Option (List ℝ)) : Except String CategoricalModel :=
  match probs, logits with
  | some _, some _ =>
      .error "Both probs and logits provided; only one should be used."
  | some p, none => .ok ⟨p.map Real.log⟩
  | none, some l => .ok ⟨l⟩
  | none, none => .error "Neither probs or logits provided; one must be."

/-- init_params_random: torch.rand_like(self.logits).softmax(0).log().
The uniform noise u drawn by rand_like (same shape as logits) is passed
explicitly. -/
def init_params_random (_m : CategoricalModel) (u : List ℝ) : CategoricalModel :=
  ⟨(softmax u).map Real.log⟩

/-- log_prob: Categorical(logits=l).log_prob(v) = l[v] - logsumexp(l). -/
def log_prob (m : CategoricalModel) (v : ℕ) : ℝ :=
  m.logits.getD v 0 - logsumexp m.logits

/-- sample: one draw from Categorical(logits=logits), with the uniform
variate u driving the draw passed explicitly. -/
def sample (m : CategoricalModel) (u : ℝ) : ℕ :=
  invCDF (softmax m.logits) u

/-- parameters: the generator yields the single tensor logits. -/
def parameters (m : CategoricalModel) : List (List ℝ) :=
  [m.logits]

/-- set_parameters: self.logits = params[0].  An empty sequence raises
IndexError before any assignment, returned as success flag false with the
state unchanged. -/
def set_parameters (m : CategoricalModel) (params : List (List ℝ)) :
    CategoricalModel × Bool :=
  match params with
  | [] => (m, false)
  | p :: _ => (⟨p⟩, true)

/-- fit: counts = X.bincount(minlength=K).float(); prob = counts /
counts.sum(); logits = prob.log(). -/
def fit (m : CategoricalModel) (X : List ℕ) : CategoricalModel :=
  let counts : List ℝ := (bincount X m.logits.length).map (Nat.cast : ℕ → ℝ)
  ⟨counts.map (fun c => Real.log (c / counts.sum))⟩

end CategoricalModel

/-- State of DiagNormalModel: the stored means and covs vectors. -/
structure DiagNormalModel where
  means : List ℝ
  covs : List ℝ

/-- Positive-definiteness of a diagonal covariance matrix, checked by the
MultivariateNormal constructor: every diagonal entry is positive. -/
def posDefDiag (vars : List ℝ) : Prop := ∀ v ∈ vars, 0 < v

/-- Log-density of MultivariateNormal(loc=means, covariance=diag(vars))
at x, written out for a diagonal covariance matrix. -/
def mvnDiagLogProb (means vars x : List ℝ) : ℝ :=
  -(1 / 2) * (List.zipWith (fun d v => d ^ 2 / v)
      (List.zipWith (fun a b => a - b) x means) vars).sum
    - (1 / 2) * (vars.map Real.log).sum
    - (means.length : ℝ) / 2 * Real.log (2 * Real.pi)

/-- One draw from MultivariateNormal(loc=means, covariance=diag(vars)):
loc + cholesky(diag(vars)) @ z = means + sqrt(vars) * z, with the standard
normal noise z passed explicitly. -/
def mvnDiagSample (means vars z : List ℝ) : List ℝ :=
  List.zipWith (fun mu sv => mu + sv) means
    (List.zipWith (fun v zi => Real.sqrt v * zi) vars z)

namespace DiagNormalModel

/-- DiagNormalModel.__init__: means and covs must have the same shape.
(The tensor-type checks are inherent in the typing of the embedding.) -/
def init (means covs : List ℝ) : Except String DiagNormalModel :=
  if means.length = covs.length then .ok ⟨means, covs⟩
  else .error "Means and covs must have same shape!"

/-- init_params_random: self.means.normal_() fills means with standard
normal noise g; self.covs.log_normal_() fills covs with exp of standard
normal noise h.  Both in-place fills keep the shapes, so the noise lists
are constrained to the current shapes in the theorems below. -/
def init_params_random (_m : DiagNormalModel) (g h : List ℝ) : DiagNormalModel :=
  ⟨g, h.map Real.exp⟩

open Classical in
/-- sample: MultivariateNormal(loc=means, covariance_matrix=covs.abs().diag())
.sample, which fails when the absolute covariance diagonal is not positive
definite (some entry is zero). -/
def sample (m : DiagNormalModel) (z : List ℝ) : Except String (List ℝ) :=
  if posDefDiag (m.covs.map (fun v => |v|)) then
    .ok (mvnDiagSample m.means (m.covs.map (fun v => |v|)) z)
  else .error "covariance_matrix must be positive definite"

open Classical in
/-- log_prob: MultivariateNormal(loc=means,
covariance_matrix=covs.abs().diag()).log_prob(value), failing as sample does. -/
def log_prob (m : DiagNormalModel) (x : List ℝ) : Except String ℝ :=
  if posDefDiag (m.covs.map (fun v => |v|)) then
    .ok (mvnDiagLogProb m.means (m.covs.map (fun v => |v|)) x)
  else .error "covariance_matrix must be positive definite"

/-- parameters: the generator yields means then covs. -/
def parameters (m : DiagNormalModel) : List (List ℝ) :=
  [m.means, m.covs]

/-- set_parameters: self.means = params[0]; self.covs = params[1], executed
in order.  A sequence of length 0 raises before any assignment; a sequence
of length 1 assigns means and then raises, leaving covs unchanged.  The
returned flag records success; the returned state is the state at return or
at the moment of the exception. -/
def set_parameters (m : DiagNormalModel) (params : List (List ℝ)) :
    DiagNormalModel × Bool :=
  match params with
  | [] => (m, false)
  | [p0] => ({ m with means := p0 }, false)
  | p0 :: p1 :: _ => (⟨p0, p1⟩, true)

/-- Column j of a batch of row vectors (out-of-range reads default to 0;
fit is only applied to rectangular batches). -/
def column (X : List (List ℝ)) (j : ℕ) : List ℝ :=
  X.map (fun row => row.getD j 0)

/-- Sample mean with denominator N, as computed by Tensor.mean(0) per
dimension. -/
def sampleMean (l : List ℝ) : ℝ := l.sum / l.length

/-- Squared result of Tensor.std(0) per dimension: torch.std defaults to
the Bessel-corrected (unbiased) estimator with denominator N - 1. -/
def stdSqUnbiased (l : List ℝ) : ℝ :=
  (l.map (fun x => (x - sampleMean l) ^ 2)).sum / ((l.length : ℝ) - 1)

/-- fit: self.means = X.mean(0); self.covs = X.std(0).pow(2).  The result
shapes come from the data rows, not from the previous state. -/
def fit (_m : DiagNormalModel) (X : List (List ℝ)) : DiagNormalModel :=
  ⟨(List.range (X.headD []).length).map (fun j => sampleMean (column X j)),
   (List.range (X.headD []).length).map (fun j => stdSqUnbiased (column X j))⟩

end DiagNormalModel

/-- Success flag of an Except value. -/
def succeeded {ε α : Type} : Except ε α → Bool
  | .ok _ => true
  | .error _ => false

/-- C1: for both CategoricalModel and DiagNormalModel, set_parameters applied
to the sequence produced by parameters succeeds and yields an observationally
identical model: the state is unchanged, so log_prob agrees on every input and
sample agrees for every value of the driving noise (hence the same
distribution under a fixed seed). -/
theorem c1_set_parameters_round_trip :
    (∀ m : CategoricalModel,
      (m.set_parameters m.parameters).1 = m ∧
      (m.set_parameters m.parameters).2 = true ∧
      (∀ v : ℕ, ((m.set_parameters m.parameters).1).log_prob v = m.log_prob v) ∧
      (∀ u : ℝ, ((m.set_parameters m.parameters).1).sample u = m.sample u)) ∧
    (∀ m : DiagNormalModel,
      (m.set_parameters m.parameters).1 = m ∧
      (m.set_parameters m.parameters).2 = true ∧
      (∀ x : List ℝ,
        ((m.set_parameters m.parameters).1).log_prob x = m.log_prob x) ∧
      (∀ z : List ℝ,
        ((m.set_parameters m.parameters).1).sample z = m.sample z)) := by
  constructor
  · intro m
    refine ⟨rfl, rfl, fun v => rfl, fun u => rfl⟩
  · intro m
    refine ⟨rfl, rfl, fun x => rfl, fun z => rfl⟩

/-- C3 counterexample: DiagNormalModel.set_parameters given a too-short
sequence of length 1 fails, yet the model state has been mutated (means was
assigned before the failing access to params[1]): the operation is not
atomic. -/
theorem c3_counterexample :
    ((DiagNormalModel.mk [0] [1]).set_parameters [[5]]).2 = false ∧
    ((DiagNormalModel.mk [0] [1]).set_parameters [[5]]).1 ≠
      DiagNormalModel.mk [0] [1] := by
  refine ⟨rfl, ?_⟩
  intro h
  have hm : ([(5 : ℝ)] : List ℝ) = [0] := congrArg DiagNormalModel.means h
  have : (5 : ℝ) = 0 := List.head_eq_of_cons_eq hm
  norm_num at this

/-- C3 amended: CategoricalModel.set_parameters is atomic (an empty sequence
fails with the state unchanged; otherwise logits is replaced and the call
succeeds).  DiagNormalModel.set_parameters fails without mutation only on an
empty sequence; on a sequence of length exactly 1 it assigns means and then
fails, leaving covs unchanged, a partial update; with two or more entries it
succeeds, replacing both fields. -/
theorem c3_set_parameters_atomicity :
    (∀ m : CategoricalModel,
      m.set_parameters [] = (m, false) ∧
      ∀ (p : List ℝ) (ps : List (List ℝ)),
        m.set_parameters (p :: ps) = (⟨p⟩, true)) ∧
    (∀ m : DiagNormalModel,
      m.set_parameters [] = (m, false) ∧
      (∀ p : List ℝ, m.set_parameters [p] = (⟨p, m.covs⟩, false)) ∧
      (∀ (p q : List ℝ) (ps : List (List ℝ)),
        m.set_parameters (p :: q :: ps) = (⟨p, q⟩, true))) := by
  refine ⟨fun m => ⟨rfl, fun p ps => rfl⟩, fun m => ⟨rfl, fun p => rfl, ?_⟩⟩
  intro p q ps
  rfl

/-- C6: constructing a CategoricalModel succeeds exactly when precisely one of
probs and logits is supplied; supplying both, or neither, always fails. -/
theorem c6_init_exactly_one :
    ∀ probs logits : Option (List ℝ),
      succeeded (CategoricalModel.init probs logits) = true ↔
        ((probs.isSome = true ∧ logits.isSome = false) ∨
         (probs.isSome = false ∧ logits.isSome = true)) := by
  intro probs logits
  cases probs <;> cases logits <;>
    simp [CategoricalModel.init, succeeded]

/-- C7: for every probability vector p, constructing from probs = p and
constructing from logits = log p both succeed and produce observationally
equivalent models: log_prob agrees on every input. -/
theorem c7_probs_logits_equivalent :
    ∀ p : List ℝ, ∃ m₁ m₂ : CategoricalModel,
      CategoricalModel.init (some p) none = .ok m₁ ∧
      CategoricalModel.init none (some (p.map Real.log)) = .ok m₂ ∧
      ∀ v : ℕ, m₁.log_prob v = m₂.log_prob v := by
  intro p
  exact ⟨⟨p.map Real.log⟩, ⟨p.map Real.log⟩, rfl, rfl, fun v => rfl⟩

/-- C2 counterexample: fitting the 1-D samples [1.0, 2.0, 3.0] stores
variance 1, not the population value 2/3: torch.std defaults to the
Bessel-corrected estimator with denominator N - 1, so covs becomes
[((1-2)^2 + (2-2)^2 + (3-2)^2) / (3 - 1)] = [1]. -/
theorem c2_counterexample :
    ((DiagNormalModel.mk [0] [1]).fit [[1], [2], [3]]).covs = [(1 : ℝ)] ∧
    ((DiagNormalModel.mk [0] [1]).fit [[1], [2], [3]]).covs ≠
      [(2 : ℝ) / 3] := by
  have h : ((DiagNormalModel.mk [0] [1]).fit [[1], [2], [3]]).covs =
      [(1 : ℝ)] := by
    simp [DiagNormalModel.fit, DiagNormalModel.column,
      DiagNormalModel.stdSqUnbiased, DiagNormalModel.sampleMean,
      List.range_succ]
    norm_num
  refine ⟨h, ?_⟩
  rw [h]
  intro hc
  have : (1 : ℝ) = 2 / 3 := List.head_eq_of_cons_eq hc
  norm_num at this

/-- C2 amended: DiagNormalModel.fit sets means to the per-dimension sample
mean (denominator N) and covs to the per-dimension unbiased sample variance
(squared torch.std, denominator N - 1); fitting the 1-D samples
[1.0, 2.0, 3.0] yields mean 2.0 and variance 1.0, fitting [1.0, 3.0] yields
variance 2.0, and in general fitting any two 1-D samples a, b yields
variance (a - b)^2 / 2 (the population convention would give 2/3, 1.0 and
(a - b)^2 / 4 respectively). -/
theorem c2_fit_mean_unbiased_variance :
    (∀ (m : DiagNormalModel) (X : List (List ℝ)),
      (m.fit X).means =
        (List.range (X.headD []).length).map
          (fun j => DiagNormalModel.sampleMean (DiagNormalModel.column X j)) ∧
      (m.fit X).covs =
        (List.range (X.headD []).length).map
          (fun j => DiagNormalModel.stdSqUnbiased (DiagNormalModel.column X j))) ∧
    ((DiagNormalModel.mk [0] [1]).fit [[1], [2], [3]]).means = [(2 : ℝ)] ∧
    ((DiagNormalModel.mk [0] [1]).fit [[1], [2], [3]]).covs = [(1 : ℝ)] ∧
    ((DiagNormalModel.mk [0] [1]).fit [[1], [3]]).covs = [(2 : ℝ)] ∧
    (∀ a b : ℝ,
      ((DiagNormalModel.mk [0] [1]).fit [[a], [b]]).means = [(a + b) / 2] ∧
      ((DiagNormalModel.mk [0] [1]).fit [[a], [b]]).covs =
        [(a - b) ^ 2 / 2]) := by
  refine ⟨fun m X => ⟨rfl, rfl⟩, ?_, ?_, ?_, ?_⟩
  · simp [DiagNormalModel.fit, DiagNormalModel.column, DiagNormalModel.stdSqUnbiased,
      DiagNormalModel.sampleMean, List.range_succ]
    norm_num
  · simp [DiagNormalModel.fit, DiagNormalModel.column, DiagNormalModel.stdSqUnbiased,
      DiagNormalModel.sampleMean, List.range_succ]
    norm_num
  · simp [DiagNormalModel.fit, DiagNormalModel.column, DiagNormalModel.stdSqUnbiased,
      DiagNormalModel.sampleMean, List.range_succ]
    norm_num
  · intro a b
    constructor <;>
    · simp [DiagNormalModel.fit, DiagNormalModel.column,
        DiagNormalModel.stdSqUnbiased, DiagNormalModel.sampleMean,
        List.range_succ]
      try ring

/-- C4 counterexample: set_parameters replaces the logits with whatever
vector is supplied, so the length fixed at construction is not preserved: a
model built with K = 2 ends with a single logit. -/
theorem c4_counterexample :
    (((CategoricalModel.mk [0, 0]).set_parameters [[1]]).1).logits.length ≠
      (CategoricalModel.mk [0, 0]).logits.length := by
  simp [CategoricalModel.set_parameters]

/-- Helper: the running maximum computed inside bincountLen is at most n when
every element is below n. -/
theorem foldr_max_le (X : List ℕ) (n : ℕ) (h : ∀ x ∈ X, x < n) :
    X.foldr (fun a b => max (a + 1) b) 0 ≤ n := by
  induction X with
  | nil => simp
  | cons a t ih =>
      simp only [List.foldr_cons]
      exact max_le (h a (List.mem_cons_self a t))
        (ih fun x hx => h x (List.mem_cons_of_mem a hx))

/-- Helper: bincount keeps exactly minlength bins when every observation is
below minlength. -/
theorem bincountLen_eq (X : List ℕ) (n : ℕ) (h : ∀ x ∈ X, x < n) :
    bincountLen X n = n :=
  max_eq_left (foldr_max_le X n h)

/-- Helper: length of the bincount result under the same condition. -/
theorem bincount_length (X : List ℕ) (n : ℕ) (h : ∀ x ∈ X, x < n) :
    (bincount X n).length = n := by
  simp [bincount, bincountLen_eq X n h]

/-- Helper: the stored logits after CategoricalModel.fit, written out. -/
theorem fit_logits_def (m : CategoricalModel) (X : List ℕ) :
    (m.fit X).logits =
      ((bincount X m.logits.length).map (Nat.cast : ℕ → ℝ)).map
        (fun c =>
          Real.log
            (c / ((bincount X m.logits.length).map (Nat.cast : ℕ → ℝ)).sum)) :=
  rfl

/-- C4 amended: the parameter lengths are preserved by init_params_random
(whose noise has the shape of the current parameters) and by
CategoricalModel.fit when every observed index is below K, but
set_parameters replaces the stored vectors with the supplied ones, so its
result length follows the input, not the construction; DiagNormalModel.fit
derives both lengths from the data rows, and they always equal each other. -/
theorem c4_parameter_lengths :
    (∀ (m : CategoricalModel) (u : List ℝ), u.length = m.logits.length →
      (m.init_params_random u).logits.length = m.logits.length) ∧
    (∀ (m : CategoricalModel) (X : List ℕ), (∀ x ∈ X, x < m.logits.length) →
      (m.fit X).logits.length = m.logits.length) ∧
    (∀ (m : CategoricalModel) (p : List ℝ) (ps : List (List ℝ)),
      ((m.set_parameters (p :: ps)).1).logits.length = p.length) ∧
    (∀ (m : DiagNormalModel) (g h : List ℝ),
      g.length = m.means.length → h.length = m.covs.length →
      (m.init_params_random g h).means.length = m.means.length ∧
      (m.init_params_random g h).covs.length = m.covs.length) ∧
    (∀ (m : DiagNormalModel) (X : List (List ℝ)),
      (m.fit X).means.length = (m.fit X).covs.length) := by
  refine ⟨?_, ?_, ?_, ?_, ?_⟩
  · intro m u hu
    simp [CategoricalModel.init_params_random, softmax, hu]
  · intro m X hX
    rw [fit_logits_def, List.length_map, List.length_map,
      bincount_length X m.logits.length hX]
  · intro m p ps
    rfl
  · intro m g h hg hh
    constructor
    · simpa [DiagNormalModel.init_params_random] using hg
    · simpa [DiagNormalModel.init_params_random] using hh
  · intro m X
    simp [DiagNormalModel.fit]

/-- C4 witness: the length-preservation conjuncts of c4_parameter_lengths
instantiated at concrete models and data. -/
theorem c4_parameter_lengths_witness :
    ((CategoricalModel.mk [0, 0]).init_params_random [1, 2]).logits.length = 2 ∧
    ((CategoricalModel.mk [0, 0]).fit [0, 1, 1]).logits.length = 2 ∧
    ((DiagNormalModel.mk [0] [1]).init_params_random [3] [4]).means.length = 1 ∧
    ((DiagNormalModel.mk [0] [1]).init_params_random [3] [4]).covs.length = 1 :=
  ⟨c4_parameter_lengths.1 ⟨[0, 0]⟩ [1, 2] rfl,
   c4_parameter_lengths.2.1 ⟨[0, 0]⟩ [0, 1, 1] (by decide),
   (c4_parameter_lengths.2.2.2.1 ⟨[0], [1]⟩ [3] [4] rfl rfl).1,
   (c4_parameter_lengths.2.2.2.1 ⟨[0], [1]⟩ [3] [4] rfl rfl).2⟩

/-- Helper: a sum over List.range equals the corresponding Finset.range sum. -/
theorem range_map_sum {M : Type} [AddCommMonoid M] (n : ℕ) (f : ℕ → M) :
    ((List.range n).map f).sum = ∑ k ∈ Finset.range n, f k := by
  induction n with
  | zero => simp
  | succ n ih =>
      rw [List.range_succ, List.map_append, List.sum_append,
        Finset.sum_range_succ, ih]
      simp

/-- Helper: when every element of X lies below n, the per-value counts over
0..n-1 sum to the length of X. -/
theorem sum_range_count (n : ℕ) :
    ∀ X : List ℕ, (∀ x ∈ X, x < n) →
      ∑ k ∈ Finset.range n, X.count k = X.length := by
  intro X
  induction X with
  | nil => intro _; simp
  | cons a t ih =>
      intro h
      have ha : a ∈ Finset.range n :=
        Finset.mem_range.mpr (h a (List.mem_cons_self a t))
      have ht := ih fun x hx => h x (List.mem_cons_of_mem a hx)
      simp only [List.count_cons, beq_iff_eq]
      rw [Finset.sum_add_distrib, ht, Finset.sum_ite_eq (Finset.range n) a
        (fun _ => 1)]
      simp [ha]

/-- Helper: CategoricalModel.fit stores the log of the empirical frequency of
each bin 0..K-1 whenever every observation lies below K. -/
theorem fit_empirical (m : CategoricalModel) (X : List ℕ)
    (hX : ∀ x ∈ X, x < m.logits.length) :
    (m.fit X).logits =
      (List.range m.logits.length).map
        (fun k => Real.log ((X.count k : ℝ) / (X.length : ℝ))) := by
  have hb : bincount X m.logits.length =
      (List.range m.logits.length).map (fun k => X.count k) := by
    rw [bincount, bincountLen_eq X m.logits.length hX]
  have hsum : ((bincount X m.logits.length).map (Nat.cast : ℕ → ℝ)).sum
      = (X.length : ℝ) := by
    rw [hb, List.map_map, range_map_sum]
    simp only [Function.comp_apply]
    rw [← Nat.cast_sum, sum_range_count m.logits.length X hX]
  rw [fit_logits_def, hsum, hb, List.map_map, List.map_map]
  rfl

/-- C5: CategoricalModel.fit stores the log of the count of each bin 0..K-1
divided by the number of observations; fitting [0, 0, 1, 1, 1, 2] on a model
with K = 3 yields probabilities [2/6, 3/6, 1/6] and then log_prob 1 equals
log (1/2). -/
theorem c5_fit_counts_normalize :
    (∀ (m : CategoricalModel) (X : List ℕ),
      (∀ x ∈ X, x < m.logits.length) →
      (m.fit X).logits =
        (List.range m.logits.length).map
          (fun k => Real.log ((X.count k : ℝ) / (X.length : ℝ)))) ∧
    (∀ m : CategoricalModel, m.logits.length = 3 →
      (m.fit [0, 0, 1, 1, 1, 2]).logits =
        [Real.log ((2 : ℝ) / 6), Real.log ((3 : ℝ) / 6),
         Real.log ((1 : ℝ) / 6)] ∧
      (m.fit [0, 0, 1, 1, 1, 2]).log_prob 1 = Real.log ((1 : ℝ) / 2)) := by
  refine ⟨fit_empirical, ?_⟩
  intro m hK
  have hX : ∀ x ∈ ([0, 0, 1, 1, 1, 2] : List ℕ), x < m.logits.length := by
    rw [hK]; decide
  have hfit := fit_empirical m [0, 0, 1, 1, 1, 2] hX
  rw [hK] at hfit
  have hlog : (m.fit [0, 0, 1, 1, 1, 2]).logits =
      [Real.log ((2 : ℝ) / 6), Real.log ((3 : ℝ) / 6),
       Real.log ((1 : ℝ) / 6)] := by
    rw [hfit]
    norm_num [List.range_succ, List.count_cons]
  refine ⟨hlog, ?_⟩
  simp only [CategoricalModel.log_prob, hlog, logsumexp]
  rw [List.map_cons, List.map_cons, List.map_cons, List.map_nil,
    Real.exp_log (by norm_num : (0 : ℝ) < 2 / 6),
    Real.exp_log (by norm_num : (0 : ℝ) < 3 / 6),
    Real.exp_log (by norm_num : (0 : ℝ) < 1 / 6)]
  norm_num

/-- C5 witness: both conjuncts of c5_fit_counts_normalize instantiated at
concrete models and data. -/
theorem c5_fit_counts_normalize_witness :
    (((CategoricalModel.mk [0, 0]).fit [1, 0]).logits =
      (List.range (CategoricalModel.mk [0, 0]).logits.length).map
        (fun k =>
          Real.log ((([1, 0] : List ℕ).count k : ℝ) /
            (([1, 0] : List ℕ).length : ℝ)))) ∧
    ((CategoricalModel.mk [0, 0, 0]).fit [0, 0, 1, 1, 1, 2]).logits =
      [Real.log ((2 : ℝ) / 6), Real.log ((3 : ℝ) / 6),
       Real.log ((1 : ℝ) / 6)] ∧
    ((CategoricalModel.mk [0, 0, 0]).fit [0, 0, 1, 1, 1, 2]).log_prob 1 =
      Real.log ((1 : ℝ) / 2) :=
  ⟨c5_fit_counts_normalize.1 ⟨[0, 0]⟩ [1, 0] (by decide),
   c5_fit_counts_normalize.2 ⟨[0, 0, 0]⟩ rfl⟩

/-- C8 counterexample: with covs = [-1, 0] (which contains a negative entry)
the absolute covariance diagonal contains a zero, the matrix diag(|covs|) is
singular, and both log_prob and sample fail in the MultivariateNormal
constructor, so the operations do not never fail. -/
theorem c8_counterexample :
    (DiagNormalModel.mk [0, 0] [-1, 0]).log_prob [0, 0] =
      .error "covariance_matrix must be positive definite" ∧
    (DiagNormalModel.mk [0, 0] [-1, 0]).sample [0, 0] =
      .error "covariance_matrix must be positive definite" := by
  have h : ¬ posDefDiag (([-1, 0] : List ℝ).map (fun v => |v|)) := by
    intro hp
    have h0 := hp |(0 : ℝ)| (by simp)
    simp at h0
  constructor
  · simp only [DiagNormalModel.log_prob]
    rw [if_neg h]
  · simp only [DiagNormalModel.sample]
    rw [if_neg h]

/-- C8 amended: as long as every covs entry is nonzero, DiagNormalModel
log_prob and sample succeed and behave as under
MultivariateNormal(means, diag(|covs|)); in particular negative entries are
coerced by absolute value and give exactly the behaviour of the model holding
|covs|.  A zero entry makes diag(|covs|) singular and both operations fail. -/
theorem c8_abs_coercion :
    ∀ (m : DiagNormalModel) (x z : List ℝ), (∀ v ∈ m.covs, v ≠ 0) →
      m.log_prob x =
        .ok (mvnDiagLogProb m.means (m.covs.map (fun v => |v|)) x) ∧
      m.sample z =
        .ok (mvnDiagSample m.means (m.covs.map (fun v => |v|)) z) ∧
      m.log_prob x =
        (DiagNormalModel.mk m.means (m.covs.map (fun v => |v|))).log_prob x ∧
      m.sample z =
        (DiagNormalModel.mk m.means (m.covs.map (fun v => |v|))).sample z := by
  intro m x z hv
  have hpos : posDefDiag (m.covs.map (fun v => |v|)) := by
    intro w hw
    obtain ⟨v, hvm, rfl⟩ := List.mem_map.mp hw
    exact abs_pos.mpr (hv v hvm)
  have habs : (m.covs.map (fun v => |v|)).map (fun v => |v|) =
      m.covs.map (fun v => |v|) := by
    rw [List.map_map]
    exact List.map_congr_left fun a _ => abs_abs a
  refine ⟨?_, ?_, ?_, ?_⟩
  · simp only [DiagNormalModel.log_prob]
    rw [if_pos hpos]
  · simp only [DiagNormalModel.sample]
    rw [if_pos hpos]
  · simp only [DiagNormalModel.log_prob]
    rw [habs, if_pos hpos]
  · simp only [DiagNormalModel.sample]
    rw [habs, if_pos hpos]

/-- C8 witness: c8_abs_coercion at the concrete model with means [0] and the
negative covs [-1], evaluated at the point [0] with noise [1]. -/
theorem c8_abs_coercion_witness :
    (DiagNormalModel.mk [0] [-1]).log_prob [0] =
      .ok (mvnDiagLogProb [0] (([-1] : List ℝ).map (fun v => |v|)) [0]) ∧
    (DiagNormalModel.mk [0] [-1]).sample [1] =
      .ok (mvnDiagSample [0] (([-1] : List ℝ).map (fun v => |v|)) [1]) ∧
    (DiagNormalModel.mk [0] [-1]).log_prob [0] =
      (DiagNormalModel.mk [0] (([-1] : List ℝ).map (fun v => |v|))).log_prob
        [0] ∧
    (DiagNormalModel.mk [0] [-1]).sample [1] =
      (DiagNormalModel.mk [0] (([-1] : List ℝ).map (fun v => |v|))).sample
        [1] :=
  c8_abs_coercion ⟨[0], [-1]⟩ [0] [1] (by norm_num)

/-- Helper: the sum of exponentials of a nonempty list is positive. -/
theorem exp_map_sum_pos (u : List ℝ) (hu : u ≠ []) :
    0 < (u.map Real.exp).sum := by
  refine List.sum_pos _ (fun x hx => ?_) ?_
  · obtain ⟨y, _, rfl⟩ := List.mem_map.mp hx
    exact Real.exp_pos y
  · simpa using hu

/-- Helper: every softmax output entry is positive. -/
theorem softmax_pos (u : List ℝ) (hu : u ≠ []) : ∀ x ∈ softmax u, 0 < x := by
  intro x hx
  obtain ⟨y, _, rfl⟩ := List.mem_map.mp hx
  exact div_pos (Real.exp_pos y) (exp_map_sum_pos u hu)

/-- Helper: the softmax of a nonempty list sums to 1. -/
theorem softmax_sum_eq_one (u : List ℝ) (hu : u ≠ []) :
    (softmax u).sum = 1 := by
  have hS := exp_map_sum_pos u hu
  unfold softmax
  simp only [div_eq_mul_inv]
  rw [List.sum_map_mul_right]
  exact mul_inv_cancel₀ (ne_of_gt hS)

/-- Helper: exponentiating undoes the elementwise log of a positive list. -/
theorem exp_log_map (p : List ℝ) (hp : ∀ x ∈ p, 0 < x) :
    (p.map Real.log).map Real.exp = p := by
  rw [List.map_map]
  calc p.map (Real.exp ∘ Real.log)
      = p.map id :=
        List.map_congr_left fun x hx => by
          simp [Real.exp_log (hp x hx)]
    _ = p := List.map_id p

/-- C9: after init_params_random (whose uniform noise has the shape of the
logits, on a model with at least one category) the logits are logs of
positive reals, and their exponentials sum to exactly 1: the stored
distribution is a valid normalized categorical. -/
theorem c9_init_params_random_normalized :
    ∀ (m : CategoricalModel) (u : List ℝ),
      u.length = m.logits.length → m.logits ≠ [] →
      ((m.init_params_random u).logits.map Real.exp).sum = 1 ∧
      ∀ l ∈ (m.init_params_random u).logits,
        ∃ p : ℝ, 0 < p ∧ l = Real.log p := by
  intro m u hlen hne
  have hu : u ≠ [] := by
    intro h
    subst h
    exact hne (List.length_eq_zero.mp hlen.symm)
  constructor
  · show (((softmax u).map Real.log).map Real.exp).sum = 1
    rw [exp_log_map (softmax u) (softmax_pos u hu)]
    exact softmax_sum_eq_one u hu
  · intro l hl
    obtain ⟨s, hs, rfl⟩ := List.mem_map.mp hl
    exact ⟨s, softmax_pos u hu s hs, rfl⟩

/-- C9 witness: c9_init_params_random_normalized at a two-category model with
concrete uniform noise. -/
theorem c9_init_params_random_normalized_witness :
    (((CategoricalModel.mk [0, 0]).init_params_random [0, 1]).logits.map
      Real.exp).sum = 1 ∧
    ∀ l ∈ ((CategoricalModel.mk [0, 0]).init_params_random [0, 1]).logits,
      ∃ p : ℝ, 0 < p ∧ l = Real.log p :=
  c9_init_params_random_normalized ⟨[0, 0]⟩ [0, 1] rfl (by simp)

/-- Helper: logsumexp of the elementwise log of a positive list is the log of
its sum. -/
theorem logsumexp_log_map (p : List ℝ) (hp : ∀ x ∈ p, 0 < x) :
    logsumexp (p.map Real.log) = Real.log p.sum := by
  unfold logsumexp
  rw [exp_log_map p hp]

/-- Helper: getD through an elementwise log, inside the bounds. -/
theorem getD_map_log (p : List ℝ) (v : ℕ) (hv : v < p.length) :
    (p.map Real.log).getD v 0 = Real.log (p.getD v 0) := by
  rw [List.getD_eq_getElem _ _ (by simpa using hv),
    List.getD_eq_getElem _ _ hv, List.getElem_map]

/-- Helper: reading every index of a list with getD reproduces the list. -/
theorem map_getD_range (p : List ℝ) :
    (List.range p.length).map (fun v => p.getD v 0) = p := by
  induction p with
  | nil => simp
  | cons a t ih =>
      rw [List.length_cons, List.range_succ_eq_map, List.map_cons,
        List.map_map]
      show a :: (List.range t.length).map (fun v => t.getD v 0) = a :: t
      rw [ih]

/-- C10: log_prob self-normalizes: scaling the construction-time probability
vector by any positive constant does not change log_prob on any valid
category index, and the exponentiated log_prob values over the support
0..K-1 sum to 1. -/
theorem c10_log_prob_scale_invariant :
    ∀ (c : ℝ) (p : List ℝ), 0 < c → (∀ x ∈ p, 0 < x) → p ≠ [] →
      ∃ m₁ m₂ : CategoricalModel,
        CategoricalModel.init (some (p.map (fun x => c * x))) none = .ok m₁ ∧
        CategoricalModel.init (some p) none = .ok m₂ ∧
        (∀ v : ℕ, v < p.length → m₁.log_prob v = m₂.log_prob v) ∧
        ((List.range p.length).map
          (fun v => Real.exp (m₂.log_prob v))).sum = 1 := by
  intro c p hc hp hne
  have hS : 0 < p.sum := List.sum_pos p hp hne
  have hcp : ∀ x ∈ p.map (fun x => c * x), 0 < x := by
    intro x hx
    obtain ⟨y, hy, rfl⟩ := List.mem_map.mp hx
    exact mul_pos hc (hp y hy)
  have hsum_cp : ∀ q : List ℝ, (q.map (fun x => c * x)).sum = c * q.sum := by
    intro q
    induction q with
    | nil => simp
    | cons a t ih => simp [ih, mul_add]
  refine ⟨⟨(p.map (fun x => c * x)).map Real.log⟩, ⟨p.map Real.log⟩, rfl, rfl,
    ?_, ?_⟩
  · intro v hv
    have hv' : v < (p.map (fun x => c * x)).length := by simpa using hv
    have hpv : 0 < p.getD v 0 := by
      rw [List.getD_eq_getElem _ _ hv]
      exact hp _ (List.getElem_mem hv)
    have hgd : (p.map (fun x => c * x)).getD v 0 = c * p.getD v 0 := by
      rw [List.getD_eq_getElem _ _ hv', List.getD_eq_getElem _ _ hv,
        List.getElem_map]
    show ((p.map (fun x => c * x)).map Real.log).getD v 0 -
        logsumexp ((p.map (fun x => c * x)).map Real.log) =
      (p.map Real.log).getD v 0 - logsumexp (p.map Real.log)
    rw [logsumexp_log_map _ hcp, logsumexp_log_map _ hp,
      getD_map_log _ v hv', getD_map_log _ v hv, hgd, hsum_cp,
      Real.log_mul (ne_of_gt hc) (ne_of_gt hpv),
      Real.log_mul (ne_of_gt hc) (ne_of_gt hS)]
    ring
  · have hcong : (List.range p.length).map
        (fun v =>
          Real.exp ((⟨p.map Real.log⟩ : CategoricalModel).log_prob v)) =
        (List.range p.length).map (fun v => p.getD v 0 / p.sum) := by
      apply List.map_congr_left
      intro v hv
      have hvlt : v < p.length := List.mem_range.mp hv
      have hpv : 0 < p.getD v 0 := by
        rw [List.getD_eq_getElem _ _ hvlt]
        exact hp _ (List.getElem_mem hvlt)
      show Real.exp ((p.map Real.log).getD v 0 -
        logsumexp (p.map Real.log)) = p.getD v 0 / p.sum
      rw [logsumexp_log_map p hp, getD_map_log p v hvlt, Real.exp_sub,
        Real.exp_log hpv, Real.exp_log hS]
    rw [hcong]
    have hsplit : (List.range p.length).map (fun v => p.getD v 0 / p.sum) =
        (p.map (fun x => x / p.sum)) := by
      show (List.range p.length).map
          ((fun x => x / p.sum) ∘ (fun v => p.getD v 0)) = _
      rw [← List.map_map, map_getD_range]
    rw [hsplit]
    have hdiv : ∀ q : List ℝ, (q.map (fun x => x / p.sum)).sum =
        q.sum / p.sum := by
      intro q
      induction q with
      | nil => simp
      | cons a t ih => simp [ih, add_div]
    rw [hdiv]
    exact div_self (ne_of_gt hS)

/-- C10 witness: c10_log_prob_scale_invariant at c = 2 and the probability
vector [1/2, 1/2]. -/
theorem c10_log_prob_scale_invariant_witness :
    ∃ m₁ m₂ : CategoricalModel,
      CategoricalModel.init
        (some (([1 / 2, 1 / 2] : List ℝ).map (fun x => 2 * x))) none =
        .ok m₁ ∧
      CategoricalModel.init (some [1 / 2, 1 / 2]) none = .ok m₂ ∧
      (∀ v : ℕ, v < ([1 / 2, 1 / 2] : List ℝ).length →
        m₁.log_prob v = m₂.log_prob v) ∧
      ((List.range ([1 / 2, 1 / 2] : List ℝ).length).map
        (fun v => Real.exp (m₂.log_prob v))).sum = 1 :=
  c10_log_prob_scale_invariant 2 [1 / 2, 1 / 2] (by norm_num) (by norm_num)
    (by simp)

end TorchMM
